import Mathlib

/-!
Verification of the earphones.heaven.lab core: the tempo estimator
(`client/src/lib/audio-processor.ts`) and the 8D spatial rotation engine
(`src/lib/8d-effects.ts`).

Numeric conventions of the embedding: JavaScript numbers are modelled as
exact rationals (`ℚ`); `Math.floor` on non-negative integer-valued
expressions becomes natural-number division; `Math.round` becomes
`⌊q + 1/2⌋`; the panner position produced by `Math.cos`/`Math.sin` lives
in `ℝ`.  Platform objects (decoded audio buffers, the analyser's byte
data) are passed in explicitly as values or oracle functions.
-/

namespace AudioProcessor

/-- Result record of `AudioProcessor.analyzeFile` (interface
`BPMAnalysisResult` in `audio-processor.ts`). -/
structure BPMAnalysisResult where
  bpm : ℤ
  confidence : ℚ
  optimalSpeed : ℚ
deriving DecidableEq, Repr

/-- JavaScript `Math.round`: round half towards positive infinity. -/
def jsRound (q : ℚ) : ℤ := ⌊q + 1/2⌋

/-- `AudioProcessor.calculateOptimalSpeed` (audio-processor.ts lines
99-105): `beatFreq = bpm / 60`, clamp `beatFreq * 0.25` to `[0.5, 5.0]`
with `Math.max(0.5, Math.min(5.0, ·))`, then round to 2 decimal places
via `Math.round(x * 100) / 100`. -/
def calculateOptimalSpeed (bpm : ℚ) : ℚ :=
  let beatFreq := bpm / 60
  let optimalSpeed := max (1/2) (min 5 (beatFreq * (1/4)))
  (jsRound (optimalSpeed * 100) : ℚ) / 100

/-- Mean energy of the 100 ms window starting at sample `i`
(audio-processor.ts lines 65-69): `sum += d[j]^2` for
`j = i .. i + windowSize - 1`, divided by `windowSize`.  Out-of-range
reads default to 0; the caller's loop bound keeps every read in range. -/
def windowEnergy (data : List ℚ) (i w : ℕ) : ℚ :=
  ((List.range w).map (fun j => data.getD (i + j) 0 * data.getD (i + j) 0)).sum / w

/-- Number of iterations of the window loop
`for (i = 0; i < data.length - windowSize; i += hopSize)`:
the count of naturals `k` with `k * hop < len - w`. -/
def numWindows (len w hop : ℕ) : ℕ := (len - w + hop - 1) / hop

/-- The overlapping-window energy sequence (audio-processor.ts lines
61-70).  A zero hop would make the source loop diverge; that cannot occur
at audio sample rates (it needs `sampleRate < 20`) and is modelled as an
empty sequence. -/
def energyList (data : List ℚ) (w hop : ℕ) : List ℚ :=
  if hop = 0 then []
  else (List.range (numWindows data.length w hop)).map (fun k => windowEnergy data (k * hop) w)

/-- JavaScript `Math.max(...energy)` over the (nonempty) energy list. -/
def maxEnergy : List ℚ → ℚ
  | [] => 0
  | e :: es => es.foldl max e

/-- Peak picking (audio-processor.ts lines 73-81): index `i` (for
`1 ≤ i ≤ len - 2`) is a peak when its energy strictly exceeds both
neighbours and `0.3 * max(energy)`; the recorded peak time is
`i * hopSize / sampleRate` seconds. -/
def peakTimes (energy : List ℚ) (hop sr : ℕ) : List ℚ :=
  (List.range' 1 (energy.length - 2)).filterMap (fun i =>
    if energy.getD i 0 > energy.getD (i - 1) 0 ∧
       energy.getD i 0 > energy.getD (i + 1) 0 ∧
       energy.getD i 0 > maxEnergy energy * (3/10)
    then some (((i * hop : ℕ) : ℚ) / (sr : ℚ))
    else none)

/-- `AudioProcessor.detectBPM` (audio-processor.ts lines 51-97) on a
decoded first-channel sample list: window size `⌊sampleRate * 0.1⌋`,
hop `⌊windowSize / 2⌋`, energy windows, peak picking, consecutive peak
intervals; an empty interval list yields 120, otherwise
`round(60 / mean(intervals))` clamped to `[60, 200]` by
`Math.max(60, Math.min(200, bpm))`. -/
def detectBPM (data : List ℚ) (sr : ℕ) : ℤ :=
  let w := sr / 10
  let hop := w / 2
  let energy := energyList data w hop
  let peaks := peakTimes energy hop sr
  let intervals := (peaks.zip peaks.tail).map (fun p => p.2 - p.1)
  if intervals.isEmpty then 120
  else
    let avgInterval := intervals.sum / (intervals.length : ℚ)
    let bpm := jsRound (60 / avgInterval)
    max 60 (min 200 bpm)

/-- The `try` block of `AudioProcessor.analyzeFile` (audio-processor.ts
lines 28-39) once decoding has produced a PCM buffer: detected bpm,
constant confidence 0.85, and `calculateOptimalSpeed` of the bpm. -/
def analyzeBuffer (data : List ℚ) (sr : ℕ) : BPMAnalysisResult :=
  let bpm := detectBPM data sr
  { bpm := bpm, confidence := 17/20, optimalSpeed := calculateOptimalSpeed (bpm : ℚ) }

/-- The `catch` fallback of `analyzeFile` (audio-processor.ts lines
43-47): `{bpm: 120, confidence: 0.5, optimalSpeed: 2.0}`. -/
def fallbackResult : BPMAnalysisResult :=
  { bpm := 120, confidence := 1/2, optimalSpeed := 2 }

/-- `AudioProcessor.analyzeFile` (audio-processor.ts lines 23-49).
`ctxInitialized` is whether the constructor managed to create an
`AudioContext`; `decoded` is the outcome of the platform decode step
(`none` when `file.arrayBuffer`/`decodeAudioData` rejects, in which case
the `catch` branch returns the fallback).  When the context is missing
the function throws `'Audio context not initialized'` before entering
the `try` block. -/
def analyzeFile (ctxInitialized : Bool) (decoded : Option (List ℚ × ℕ)) :
    Except String BPMAnalysisResult :=
  if ctxInitialized then
    match decoded with
    | some (data, sr) => Except.ok (analyzeBuffer data sr)
    | none => Except.ok fallbackResult
  else Except.error "Audio context not initialized"

/-- `AudioProcessor.getRhythmicMultipliers` (audio-processor.ts lines
108-134): a guard list for `bpm <= 0`, otherwise the fixed ratio list
`[1/4, 1/2, 2/3, 3/4, 1, 4/3, 3/2, 2, 5/2, 3]` mapped through the
identity, filtered to `[0.25, 3.0]` and sorted ascending. -/
def getRhythmicMultipliers (bpm : ℚ) : List ℚ :=
  if bpm ≤ 0 then [1/4, 1/2, 3/4, 1, 5/4, 3/2, 2]
  else
    let rhythmicRatios : List ℚ := [1/4, 1/2, 2/3, 3/4, 1, 4/3, 3/2, 2, 5/2, 3]
    ((rhythmicRatios.map id).filter
      (fun m => decide ((1/4 : ℚ) ≤ m ∧ m ≤ 3))).insertionSort (· ≤ ·)

/-- One iteration of the scan loop of `getClosestRhythmicMultiplier`
(audio-processor.ts lines 143-149): replace the accumulator
`(closest, minDiff)` when `abs(currentValue - mult) < minDiff`. -/
def closestStep (v : ℚ) (acc : ℚ × ℚ) (m : ℚ) : ℚ × ℚ :=
  if |v - m| < acc.2 then (m, |v - m|) else acc

/-- The scan of the full multiplier list starting from initial candidate
`c` with initial difference `|v - c|`. -/
def closestScan (v c : ℚ) (l : List ℚ) : ℚ × ℚ :=
  l.foldl (closestStep v) (c, |v - c|)

/-- `AudioProcessor.getClosestRhythmicMultiplier` (audio-processor.ts
lines 137-152): initialise with the head of `getRhythmicMultipliers bpm`
and scan the whole list, keeping the strictly better candidate. -/
def getClosestRhythmicMultiplier (currentValue bpm : ℚ) : ℚ :=
  let ms := getRhythmicMultipliers bpm
  (closestScan currentValue (ms.headD 0) ms).1

end AudioProcessor

namespace EightDProcessor

/-- Interface `EightDConfig` of `8d-effects.ts`: rotation speed,
intensity and radius. -/
structure EightDConfig where
  speed : ℚ
  intensity : ℚ
  radius : ℚ
deriving DecidableEq, Repr

/-- A 3D panner position as written by
`panner.positionX/Y/Z.setValueAtTime`. -/
structure Vec3 where
  x : ℝ
  y : ℝ
  z : ℝ

/-- The mutable state of an `EightDProcessor` instance: the `isActive`
flag, the accumulated rotation `angle`, the current panner position, the
current config and the analyser's configured `fftSize`. -/
structure EngineState where
  isActive : Bool
  angle : ℚ
  pannerPos : Vec3
  config : EightDConfig
  fftSize : ℕ

/-- The state established by the constructor together with `setupNodes`
(8d-effects.ts lines 18-63): inactive, angle 0, panner at the start
position `(3, 0, 0)`, config `{speed: 2.5, intensity: 1.0, radius: 5.0}`
and analyser `fftSize = 2048`. -/
noncomputable def initState : EngineState :=
  { isActive := false
    angle := 0
    pannerPos := ⟨3, 0, 0⟩
    config := { speed := 5/2, intensity := 1, radius := 5 }
    fftSize := 2048 }

/-- One invocation of `EightDProcessor.animate` (8d-effects.ts lines
106-151): return unchanged when inactive, otherwise advance
`angle += speed * 0.05`, and write the panner position
`(cos(angle) * radius * intensity, 0, sin(angle) * radius * intensity)`
computed from the new angle. -/
noncomputable def animate (s : EngineState) : EngineState :=
  if s.isActive = false then s
  else
    let angle := s.angle + s.config.speed * (1/20)
    let radius := s.config.radius * s.config.intensity
    { s with
      angle := angle
      pannerPos := ⟨Real.cos (angle : ℝ) * (radius : ℝ), 0, Real.sin (angle : ℝ) * (radius : ℝ)⟩ }

/-- `EightDProcessor.start` (8d-effects.ts lines 83-88): no-op when
already active, otherwise set the flag and run `animate` (which performs
one advance and schedules the next frame). -/
noncomputable def start (s : EngineState) : EngineState :=
  if s.isActive then s else animate { s with isActive := true }

/-- `EightDProcessor.stop` (8d-effects.ts lines 90-104): clear the flag,
cancel the scheduled frame and reset the panner position to the
center-front reference `(0, 0, -1)`.  The angle and config are not
touched. -/
noncomputable def stop (s : EngineState) : EngineState :=
  { s with isActive := false, pannerPos := ⟨0, 0, -1⟩ }

/-- A `Partial<EightDConfig>` argument of `updateConfig`: each field is
either absent or supplies a new value. -/
structure ConfigPatch where
  speed : Option ℚ := none
  intensity : Option ℚ := none
  radius : Option ℚ := none

/-- `EightDProcessor.updateConfig` (8d-effects.ts lines 153-155): the
spread `{...this.config, ...config}` keeps every field not present in
the patch and overwrites every field that is. -/
noncomputable def updateConfig (s : EngineState) (p : ConfigPatch) : EngineState :=
  { s with
    config :=
      { speed := p.speed.getD s.config.speed
        intensity := p.intensity.getD s.config.intensity
        radius := p.radius.getD s.config.radius } }

/-- `AnalyserNode.frequencyBinCount`: half the configured `fftSize`. -/
def frequencyBinCount (s : EngineState) : ℕ := s.fftSize / 2

/-- `EightDProcessor.getAnalyserData` (8d-effects.ts lines 157-161):
allocate a `Uint8Array` of length `frequencyBinCount` and fill it with
the analyser's byte frequency data.  The platform-computed spectrum is
modelled by the oracle `env`; writing through a `Uint8Array` truncates
each value to a byte. -/
def getAnalyserData (s : EngineState) (env : ℕ → ℕ) : List ℕ :=
  (List.range (frequencyBinCount s)).map (fun i => env i % 256)

end EightDProcessor

namespace AudioProcessor

/-- `SpeedMapper.mapSpeed` as the spec words it (spec.md §4.2):
`beatFreq = bpm/60`; `speed = clamp(beatFreq * 0.25, 0.5, 5.0)`, rounded
to 2 decimal places. -/
def mapSpeedSpec (bpm : ℚ) : ℚ :=
  let beatFreq := bpm / 60
  let clamped := max (1/2) (min 5 (beatFreq * (1/4)))
  (jsRound (clamped * 100) : ℚ) / 100

lemma calculateOptimalSpeed_eq (bpm : ℚ) :
    calculateOptimalSpeed bpm =
      (jsRound (max (1/2) (min 5 (bpm / 60 * (1/4))) * 100) : ℚ) / 100 := rfl

lemma calculateOptimalSpeed_bounds (bpm : ℚ) :
    1/2 ≤ calculateOptimalSpeed bpm ∧ calculateOptimalSpeed bpm ≤ 5 := by
  have h100 : (0 : ℚ) < 100 := by norm_num
  rw [calculateOptimalSpeed_eq bpm]
  set x := max (1/2 : ℚ) (min 5 (bpm / 60 * (1/4))) with hx
  have h1 : (1/2 : ℚ) ≤ x := le_max_left _ _
  have h2 : x ≤ 5 := max_le (by norm_num) (min_le_left _ _)
  have hlo : (50 : ℤ) ≤ jsRound (x * 100) := by
    rw [jsRound, Int.le_floor]
    push_cast
    linarith
  have hhi : jsRound (x * 100) ≤ 500 := by
    have : jsRound (x * 100) < 501 := by
      rw [jsRound, Int.floor_lt]
      push_cast
      linarith
    omega
  constructor
  · rw [le_div_iff₀ h100]
    have h : (50 : ℚ) ≤ (jsRound (x * 100) : ℚ) := by exact_mod_cast hlo
    linarith
  · rw [div_le_iff₀ h100]
    have h : (jsRound (x * 100) : ℚ) ≤ (500 : ℚ) := by exact_mod_cast hhi
    linarith

/-- C7: `calculateOptimalSpeed` computes exactly the spec's
`mapSpeed` — clamp `(bpm/60) * 0.25` to `[0.5, 5.0]` and round to 2
decimal places — and for every bpm in `[60, 200]` the result lies in
`[0.5, 5.0]` (the clamp in fact guarantees the bounds for every bpm). -/
theorem optimalSpeed_matches_spec_and_bounded (bpm : ℚ)
    (h1 : 60 ≤ bpm) (h2 : bpm ≤ 200) :
    calculateOptimalSpeed bpm = mapSpeedSpec bpm ∧
    1/2 ≤ calculateOptimalSpeed bpm ∧ calculateOptimalSpeed bpm ≤ 5 :=
  ⟨rfl, calculateOptimalSpeed_bounds bpm⟩

/-- Witness for C7 at bpm = 120. -/
theorem optimalSpeed_matches_spec_and_bounded_witness :
    (60 : ℚ) ≤ 120 ∧ (120 : ℚ) ≤ 200 ∧
    (calculateOptimalSpeed 120 = mapSpeedSpec 120 ∧
     1/2 ≤ calculateOptimalSpeed 120 ∧ calculateOptimalSpeed 120 ≤ 5) :=
  ⟨by norm_num, by norm_num,
   optimalSpeed_matches_spec_and_bounded 120 (by norm_num) (by norm_num)⟩

end AudioProcessor

namespace EightDProcessor

lemma start_isActive (s : EngineState) : (start s).isActive = true := by
  by_cases h : s.isActive
  · simp [start, h]
  · simp [start, h, animate]

/-- C5: `start` is idempotent (a second `start` leaves the entire state,
hence in particular the RotationState `{angle, isActive}`, unchanged),
`stop` is idempotent, and after any state — in particular after any
number of ticks — `stop` puts the panner exactly at the center-front
reference `(0, 0, -1)`. -/
theorem start_stop_idempotent_and_stop_resets (s : EngineState) (n : ℕ) :
    start (start s) = start s ∧
    stop (stop s) = stop s ∧
    (stop s).pannerPos = ⟨0, 0, -1⟩ ∧
    (stop (animate^[n] s)).pannerPos = ⟨0, 0, -1⟩ :=
  ⟨by rw [start, if_pos (start_isActive s)], rfl, rfl, rfl⟩

/-- C8: `updateConfig` overwrites exactly the fields present in the
patch, keeps every absent field (an empty patch keeps the whole config),
never touches the rotation angle or the active flag, and the constructor
defaults are `speed = 2.5`, `intensity = 1.0`, `radius = 5.0`. -/
theorem updateConfig_merges_preserves_state (s : EngineState) (p : ConfigPatch) :
    (updateConfig s p).config.speed = p.speed.getD s.config.speed ∧
    (updateConfig s p).config.intensity = p.intensity.getD s.config.intensity ∧
    (updateConfig s p).config.radius = p.radius.getD s.config.radius ∧
    (updateConfig s ⟨none, none, none⟩).config = s.config ∧
    (updateConfig s p).angle = s.angle ∧
    (updateConfig s p).isActive = s.isActive ∧
    initState.config = ⟨5/2, 1, 5⟩ :=
  ⟨rfl, rfl, rfl, rfl, rfl, rfl, rfl⟩

/-- C9: `getAnalyserData` is state-independent (safe whether Stopped or
Running), always returns a sequence of byte values (each `< 256`) whose
length is `fftSize / 2`, which is 1024 for the constructor-configured
`fftSize = 2048`. -/
theorem getAnalyserData_size_and_range (s : EngineState) (env : ℕ → ℕ) (b : Bool) :
    (getAnalyserData s env).length = s.fftSize / 2 ∧
    (∀ v ∈ getAnalyserData s env, v < 256) ∧
    getAnalyserData { s with isActive := b } env = getAnalyserData s env ∧
    (getAnalyserData initState env).length = 1024 ∧
    initState.fftSize = 2048 := by
  refine ⟨by simp [getAnalyserData, frequencyBinCount], ?_, rfl, by simp [getAnalyserData, frequencyBinCount, initState], rfl⟩
  intro v hv
  simp only [getAnalyserData, List.mem_map] at hv
  obtain ⟨i, -, rfl⟩ := hv
  exact Nat.mod_lt _ (by norm_num)

/-- C10: `stop` clears the active flag and resets the position but keeps
the accumulated angle (and the config), so a following `start` advances
the rotation from the pre-stop angle — the first restarted tick lands at
`angle + speed * 0.05` — rather than restarting from angle 0. -/
theorem stop_keeps_angle_start_resumes (s : EngineState) :
    (stop s).angle = s.angle ∧
    (stop s).isActive = false ∧
    (stop s).config = s.config ∧
    (start (stop s)).angle = s.angle + s.config.speed * (1/20) := by
  refine ⟨rfl, rfl, rfl, ?_⟩
  simp [start, stop, animate]

lemma animate_of_active (s : EngineState) (h : s.isActive = true) :
    animate s =
      { s with
        angle := s.angle + s.config.speed * (1/20)
        pannerPos :=
          ⟨Real.cos ((s.angle + s.config.speed * (1/20) : ℚ) : ℝ) *
             ((s.config.radius * s.config.intensity : ℚ) : ℝ), 0,
           Real.sin ((s.angle + s.config.speed * (1/20) : ℚ) : ℝ) *
             ((s.config.radius * s.config.intensity : ℚ) : ℝ)⟩ } := by
  simp [animate, h]

lemma animate_iter_active (s : EngineState) (h : s.isActive = true) (n : ℕ) :
    (animate^[n] s).isActive = true ∧
    (animate^[n] s).config = s.config ∧
    (animate^[n] s).angle = s.angle + n * (s.config.speed * (1/20)) := by
  induction n with
  | zero => simp [h]
  | succ n ih =>
    obtain ⟨ha, hc, hθ⟩ := ih
    rw [Function.iterate_succ_apply', animate_of_active _ ha]
    refine ⟨ha, hc, ?_⟩
    simp only [hθ, hc]
    push_cast
    ring

/-- C4: while Running, each tick advances the angle by `speed * 0.05`
and emits the position
`(cos(angle) * radius * intensity, 0, sin(angle) * radius * intensity)`
at the advanced angle; with `speed = 2, radius = 1, intensity = 1`,
after exactly 10 ticks from angle 0 the angle is `10 * 2 * 0.05 = 1`
radian and the position is `(cos 1, 0, sin 1)` (exactly, since the
embedding computes with exact rationals). -/
theorem tick_semantics_and_rotation_determinism :
    (∀ s : EngineState, s.isActive = true →
      (animate s).angle = s.angle + s.config.speed * (1/20) ∧
      (animate s).pannerPos =
        ⟨Real.cos ((s.angle + s.config.speed * (1/20) : ℚ) : ℝ) *
           ((s.config.radius * s.config.intensity : ℚ) : ℝ), 0,
         Real.sin ((s.angle + s.config.speed * (1/20) : ℚ) : ℝ) *
           ((s.config.radius * s.config.intensity : ℚ) : ℝ)⟩) ∧
    (∀ s : EngineState, s.isActive = true → s.angle = 0 → s.config = ⟨2, 1, 1⟩ →
      (animate^[10] s).angle = 1 ∧
      (animate^[10] s).pannerPos = ⟨Real.cos 1, 0, Real.sin 1⟩) := by
  constructor
  · intro s h
    rw [animate_of_active s h]
    exact ⟨rfl, rfl⟩
  · intro s h h0 hc
    have h10 := animate_iter_active s h 10
    have h9 := animate_iter_active s h 9
    constructor
    · rw [h10.2.2, h0, hc]
      norm_num
    · have hstep : animate^[10] s = animate (animate^[9] s) :=
        Function.iterate_succ_apply' animate 9 s
      rw [hstep, animate_of_active _ h9.1]
      have hθ : (animate^[9] s).angle = 9/10 := by
        rw [h9.2.2, h0, hc]
        norm_num
      rw [hθ, h9.2.1, hc]
      norm_num

/-- A concrete running engine state used to witness C4. -/
noncomputable def runningState : EngineState :=
  { isActive := true
    angle := 0
    pannerPos := ⟨3, 0, 0⟩
    config := { speed := 2, intensity := 1, radius := 1 }
    fftSize := 2048 }

/-- Witness for C4 at the concrete running state. -/
theorem tick_semantics_and_rotation_determinism_witness :
    (animate^[10] runningState).angle = 1 ∧
    (animate^[10] runningState).pannerPos = ⟨Real.cos 1, 0, Real.sin 1⟩ :=
  tick_semantics_and_rotation_determinism.2 runningState rfl rfl rfl

end EightDProcessor

namespace AudioProcessor

/-- The superset of admissible candidate ratios named by the claim
(spec.md §8), with `0.667`/`1.333` read as the source's exact `2/3` and
`4/3` (spec.md §4.3 lists the same set as rationals). -/
def claimRatioSuperset : List ℚ := [1/4, 1/2, 2/3, 3/4, 1, 4/3, 3/2, 2, 5/2, 3]

lemma getRhythmicMultipliers_of_pos (bpm : ℚ) (h : 0 < bpm) :
    getRhythmicMultipliers bpm = [1/4, 1/2, 2/3, 3/4, 1, 4/3, 3/2, 2, 5/2, 3] := by
  rw [getRhythmicMultipliers, if_neg (not_le.2 h)]
  norm_num [List.insertionSort, List.orderedInsert, List.filter]

lemma getRhythmicMultipliers_of_nonpos (bpm : ℚ) (h : bpm ≤ 0) :
    getRhythmicMultipliers bpm = [1/4, 1/2, 3/4, 1, 5/4, 3/2, 2] := by
  rw [getRhythmicMultipliers, if_pos h]

/-- C3 counterexample: at `bpm = 0` the guard branch returns the
distinct list `[0.25, 0.5, 0.75, 1.0, 1.25, 1.5, 2.0]`, which differs
from the list returned for positive bpm and contains `1.25`, a value
outside the claim's superset — so the result is not the same constant
sequence for every bpm and not always a subset of the claimed set. -/
theorem candidate_set_depends_on_bpm_sign :
    getRhythmicMultipliers 0 ≠ getRhythmicMultipliers 120 ∧
    (5/4 : ℚ) ∈ getRhythmicMultipliers 0 ∧
    (5/4 : ℚ) ∉ claimRatioSuperset := by
  rw [getRhythmicMultipliers_of_nonpos 0 le_rfl, getRhythmicMultipliers_of_pos 120 (by norm_num)]
  refine ⟨?_, by norm_num, by norm_num [claimRatioSuperset]⟩
  intro hEq
  have := congrArg List.length hEq
  simp at this

/-- C3 (amended): for every positive bpm, `getRhythmicMultipliers`
returns one constant sequence — the full fixed ratio list sorted
ascending, a subset of the claimed superset; the constancy and the
subset property fail only on the non-positive-bpm guard branch. -/
theorem candidate_set_constant_on_pos_bpm (bpm : ℚ) (h : 0 < bpm) :
    getRhythmicMultipliers bpm = [1/4, 1/2, 2/3, 3/4, 1, 4/3, 3/2, 2, 5/2, 3] ∧
    List.Sorted (· ≤ ·) (getRhythmicMultipliers bpm) ∧
    (∀ m ∈ getRhythmicMultipliers bpm, m ∈ claimRatioSuperset) ∧
    getRhythmicMultipliers bpm = getRhythmicMultipliers 120 := by
  rw [getRhythmicMultipliers_of_pos bpm h, getRhythmicMultipliers_of_pos 120 (by norm_num)]
  refine ⟨rfl, ?_, ?_, rfl⟩
  · norm_num [List.sorted_cons]
  · intro m hm
    simp only [claimRatioSuperset]
    simp only [List.mem_cons, List.not_mem_nil, or_false] at hm
    rcases hm with h | h | h | h | h | h | h | h | h | h <;> simp [h]

/-- Witness for C3 (amended) at bpm = 120. -/
theorem candidate_set_constant_on_pos_bpm_witness :
    getRhythmicMultipliers 120 = [1/4, 1/2, 2/3, 3/4, 1, 4/3, 3/2, 2, 5/2, 3] :=
  (candidate_set_constant_on_pos_bpm 120 (by norm_num)).1

end AudioProcessor

namespace AudioProcessor

lemma closestScan_cons (v c m : ℚ) (l : List ℚ) :
    closestScan v c (m :: l) =
      if |v - m| < |v - c| then closestScan v m l else closestScan v c l := by
  simp only [closestScan, List.foldl_cons, closestStep]
  by_cases h : |v - m| < |v - c| <;> simp [h]

lemma closestScan_min (v : ℚ) (l : List ℚ) : ∀ c : ℚ,
    ((closestScan v c l).1 = c ∨ (closestScan v c l).1 ∈ l) ∧
    (closestScan v c l).2 = |v - (closestScan v c l).1| ∧
    (closestScan v c l).2 ≤ |v - c| ∧
    ∀ m ∈ l, (closestScan v c l).2 ≤ |v - m| := by
  induction l with
  | nil => intro c; simp [closestScan]
  | cons m l ih =>
    intro c
    rw [closestScan_cons]
    by_cases h : |v - m| < |v - c|
    · rw [if_pos h]
      obtain ⟨hmem, hsnd, hinit, hmin⟩ := ih m
      refine ⟨?_, hsnd, le_of_lt (lt_of_le_of_lt hinit h), ?_⟩
      · rcases hmem with h' | h'
        · exact Or.inr (by rw [h']; exact List.mem_cons_self m l)
        · exact Or.inr (List.mem_cons_of_mem m h')
      · intro m' hm'
        rcases List.mem_cons.1 hm' with h' | h'
        · exact h' ▸ hinit
        · exact hmin m' h'
    · rw [if_neg h]
      push_neg at h
      obtain ⟨hmem, hsnd, hinit, hmin⟩ := ih c
      refine ⟨?_, hsnd, hinit, ?_⟩
      · rcases hmem with h' | h'
        · exact Or.inl h'
        · exact Or.inr (List.mem_cons_of_mem m h')
      · intro m' hm'
        rcases List.mem_cons.1 hm' with h' | h'
        · exact h' ▸ le_trans hinit h
        · exact hmin m' h'

lemma closestScan_tie (v : ℚ) (l : List ℚ) : ∀ c : ℚ,
    (∀ m ∈ l, c ≤ m) → l.Sorted (· ≤ ·) →
    (|v - c| = (closestScan v c l).2 → (closestScan v c l).1 ≤ c) ∧
    ∀ m ∈ l, |v - m| = (closestScan v c l).2 → (closestScan v c l).1 ≤ m := by
  induction l with
  | nil => intro c _ _; simp [closestScan]
  | cons m l ih =>
    intro c hcm hsorted
    have hml : ∀ m' ∈ l, m ≤ m' := (List.sorted_cons.1 hsorted).1
    have hsl : l.Sorted (· ≤ ·) := (List.sorted_cons.1 hsorted).2
    rw [closestScan_cons]
    by_cases h : |v - m| < |v - c|
    · rw [if_pos h]
      obtain ⟨tie_init, tie_rest⟩ := ih m hml hsl
      have hub : (closestScan v m l).2 ≤ |v - m| := (closestScan_min v l m).2.2.1
      refine ⟨?_, ?_⟩
      · intro hEq
        have : |v - c| ≤ |v - m| := hEq ▸ hub
        exact absurd (lt_of_lt_of_le h this) (lt_irrefl _)
      · intro m' hm' hEq
        rcases List.mem_cons.1 hm' with h' | h'
        · exact h' ▸ tie_init (h' ▸ hEq)
        · exact tie_rest m' h' hEq
    · rw [if_neg h]
      push_neg at h
      have hcl : ∀ m' ∈ l, c ≤ m' := fun m' hm' => hcm m' (List.mem_cons_of_mem m hm')
      obtain ⟨tie_init, tie_rest⟩ := ih c hcl hsl
      have hub : (closestScan v c l).2 ≤ |v - c| := (closestScan_min v l c).2.2.1
      refine ⟨tie_init, ?_⟩
      intro m' hm' hEq
      rcases List.mem_cons.1 hm' with h' | h'
      · subst h'
        have h1 : |v - c| = (closestScan v c l).2 := le_antisymm (hEq ▸ h) hub
        exact le_trans (tie_init h1) (hcm m' (List.mem_cons_self m' l))
      · exact tie_rest m' h' hEq

lemma getRhythmicMultipliers_sorted (bpm : ℚ) :
    List.Sorted (· ≤ ·) (getRhythmicMultipliers bpm) := by
  rcases le_or_lt bpm 0 with h | h
  · rw [getRhythmicMultipliers_of_nonpos bpm h]
    norm_num [List.sorted_cons]
  · rw [getRhythmicMultipliers_of_pos bpm h]
    norm_num [List.sorted_cons]

lemma getClosestRhythmicMultiplier_eq (v bpm c : ℚ) (rest : List ℚ)
    (h : getRhythmicMultipliers bpm = c :: rest) :
    getClosestRhythmicMultiplier v bpm = (closestScan v c (c :: rest)).1 := by
  rw [getClosestRhythmicMultiplier, h]
  rfl

lemma closest_spec_aux (v c : ℚ) (rest : List ℚ)
    (hsorted : List.Sorted (· ≤ ·) (c :: rest)) :
    (closestScan v c (c :: rest)).1 ∈ c :: rest ∧
    (∀ m ∈ c :: rest, |v - (closestScan v c (c :: rest)).1| ≤ |v - m|) ∧
    (∀ m ∈ c :: rest, |v - m| = |v - (closestScan v c (c :: rest)).1| →
      (closestScan v c (c :: rest)).1 ≤ m) ∧
    (v ∈ c :: rest → (closestScan v c (c :: rest)).1 = v) := by
  obtain ⟨hmem, hsnd, hinit, hmin⟩ := closestScan_min v (c :: rest) c
  have hhead : ∀ m ∈ c :: rest, c ≤ m := by
    intro m hm
    rcases List.mem_cons.1 hm with h' | h'
    · exact h' ▸ le_refl c
    · exact (List.sorted_cons.1 hsorted).1 m h'
  have hmem' : (closestScan v c (c :: rest)).1 ∈ c :: rest := by
    rcases hmem with h' | h'
    · rw [h']; exact List.mem_cons_self c rest
    · exact h'
  have hle : ∀ m ∈ c :: rest, |v - (closestScan v c (c :: rest)).1| ≤ |v - m| := by
    intro m hm
    rw [← hsnd]
    exact hmin m hm
  have htie := (closestScan_tie v (c :: rest) c hhead hsorted).2
  refine ⟨hmem', hle, ?_, ?_⟩
  · intro m hm hEq
    exact htie m hm (by rw [hEq, hsnd])
  · intro hv
    have h0 : |v - (closestScan v c (c :: rest)).1| ≤ 0 := by
      have := hle v hv
      simpa using this
    have := abs_nonneg (v - (closestScan v c (c :: rest)).1)
    have hz : v - (closestScan v c (c :: rest)).1 = 0 := by
      rw [← abs_eq_zero]
      linarith
    linarith [sub_eq_zero.1 hz]

/-- C6: `getClosestRhythmicMultiplier` returns a member of the candidate
list that minimises `abs(value - candidate)`; any tying candidate is at
least the returned one (ties go to the first, i.e. lowest, candidate of
the ascending list); a value equal to a candidate is returned unchanged;
and `closest(0.26, bpm) = 0.25` for every bpm. -/
theorem closest_multiplier_nearest_tie_lowest (v bpm : ℚ) :
    getClosestRhythmicMultiplier v bpm ∈ getRhythmicMultipliers bpm ∧
    (∀ m ∈ getRhythmicMultipliers bpm,
      |v - getClosestRhythmicMultiplier v bpm| ≤ |v - m|) ∧
    (∀ m ∈ getRhythmicMultipliers bpm,
      |v - m| = |v - getClosestRhythmicMultiplier v bpm| →
      getClosestRhythmicMultiplier v bpm ≤ m) ∧
    (v ∈ getRhythmicMultipliers bpm → getClosestRhythmicMultiplier v bpm = v) ∧
    getClosestRhythmicMultiplier (26/100) bpm = 1/4 := by
  rcases le_or_lt bpm 0 with hb | hb
  · have hms := getRhythmicMultipliers_of_nonpos bpm hb
    have heq := getClosestRhythmicMultiplier_eq v bpm (1/4) [1/2, 3/4, 1, 5/4, 3/2, 2] hms
    have hs : List.Sorted (· ≤ ·) ((1/4 : ℚ) :: [1/2, 3/4, 1, 5/4, 3/2, 2]) := by
      norm_num [List.sorted_cons]
    obtain ⟨h1, h2, h3, h4⟩ := closest_spec_aux v (1/4) [1/2, 3/4, 1, 5/4, 3/2, 2] hs
    rw [hms, heq]
    refine ⟨h1, h2, h3, h4, ?_⟩
    rw [getClosestRhythmicMultiplier_eq (26/100) bpm (1/4) [1/2, 3/4, 1, 5/4, 3/2, 2] hms]
    norm_num [closestScan, closestStep, List.foldl, abs_of_pos, abs_of_neg, abs_of_nonneg]
  · have hms := getRhythmicMultipliers_of_pos bpm hb
    have heq := getClosestRhythmicMultiplier_eq v bpm (1/4)
      [1/2, 2/3, 3/4, 1, 4/3, 3/2, 2, 5/2, 3] hms
    have hs : List.Sorted (· ≤ ·) ((1/4 : ℚ) :: [1/2, 2/3, 3/4, 1, 4/3, 3/2, 2, 5/2, 3]) := by
      norm_num [List.sorted_cons]
    obtain ⟨h1, h2, h3, h4⟩ :=
      closest_spec_aux v (1/4) [1/2, 2/3, 3/4, 1, 4/3, 3/2, 2, 5/2, 3] hs
    rw [hms, heq]
    refine ⟨h1, h2, h3, h4, ?_⟩
    rw [getClosestRhythmicMultiplier_eq (26/100) bpm (1/4)
      [1/2, 2/3, 3/4, 1, 4/3, 3/2, 2, 5/2, 3] hms]
    norm_num [closestScan, closestStep, List.foldl, abs_of_pos, abs_of_neg, abs_of_nonneg]

/-- Witness for C6 at `value = 0.26`, `bpm = 120`: the returned
multiplier is `0.25` and it belongs to the candidate list. -/
theorem closest_multiplier_nearest_tie_lowest_witness :
    getClosestRhythmicMultiplier (26/100) 120 ∈ getRhythmicMultipliers 120 ∧
    getClosestRhythmicMultiplier (26/100) 120 = 1/4 :=
  ⟨(closest_multiplier_nearest_tie_lowest (26/100) 120).1,
   (closest_multiplier_nearest_tie_lowest (26/100) 120).2.2.2.2⟩

end AudioProcessor

namespace AudioProcessor

lemma getD_zero_of_all_zero (l : List ℚ) (h : ∀ x ∈ l, x = 0) (k : ℕ) :
    l.getD k 0 = 0 := by
  induction l generalizing k with
  | nil => simp
  | cons a l ih =>
    cases k with
    | zero => simpa using h a (List.mem_cons_self a l)
    | succ k =>
      simp only [List.getD_cons_succ]
      exact ih (fun x hx => h x (List.mem_cons_of_mem a hx)) k

lemma windowEnergy_of_all_zero (data : List ℚ) (h : ∀ x ∈ data, x = 0) (i w : ℕ) :
    windowEnergy data i w = 0 := by
  rw [windowEnergy]
  have : ∀ j ∈ List.range w,
      data.getD (i + j) 0 * data.getD (i + j) 0 = 0 := by
    intro j _
    rw [getD_zero_of_all_zero data h (i + j), mul_zero]
  rw [List.map_congr_left this]
  simp

lemma energyList_all_zero (data : List ℚ) (h : ∀ x ∈ data, x = 0) (w hop : ℕ) :
    ∀ e ∈ energyList data w hop, e = 0 := by
  intro e he
  rw [energyList] at he
  split at he
  · simp at he
  · obtain ⟨k, -, rfl⟩ := List.mem_map.1 he
    exact windowEnergy_of_all_zero data h (k * hop) w

lemma peakTimes_of_all_zero (energy : List ℚ) (h : ∀ x ∈ energy, x = 0)
    (hop sr : ℕ) : peakTimes energy hop sr = [] := by
  rw [peakTimes, List.filterMap_eq_nil]
  intro i _
  rw [if_neg]
  rw [getD_zero_of_all_zero energy h i, getD_zero_of_all_zero energy h (i - 1)]
  simp

/-- On an all-zero sample buffer every energy window is zero, so the
strict peak condition never fires, no intervals exist, and `detectBPM`
takes its no-intervals default 120. -/
lemma detectBPM_silent (n sr : ℕ) :
    detectBPM (List.replicate n (0 : ℚ)) sr = 120 := by
  rw [detectBPM]
  have hz : ∀ x ∈ List.replicate n (0 : ℚ), x = 0 :=
    fun x hx => List.eq_of_mem_replicate hx
  rw [peakTimes_of_all_zero _ (energyList_all_zero _ hz _ _)]
  simp

/-- Shared: analysing an all-zero buffer of any length at any sample
rate takes the success path with the no-peaks default bpm. -/
lemma analyzeBuffer_silent (n sr : ℕ) :
    analyzeBuffer (List.replicate n (0 : ℚ)) sr = ⟨120, 17/20, 1/2⟩ := by
  rw [analyzeBuffer, detectBPM_silent]
  have : calculateOptimalSpeed ((120 : ℤ) : ℚ) = 1/2 := by
    norm_num [calculateOptimalSpeed, jsRound, Int.floor_eq_iff]
  rw [this]

/-- C1 counterexample: one second of silence at 100 Hz (any silent
buffer behaves the same) yields `{bpm: 120, confidence: 0.85,
optimalSpeed: 0.5}` — not the claimed full fallback
`{bpm: 120, confidence: 0.5, optimalSpeed: 2.0}`. -/
theorem silent_buffer_not_fallback_estimate :
    analyzeBuffer (List.replicate 100 (0 : ℚ)) 100 = ⟨120, 17/20, 1/2⟩ ∧
    analyzeBuffer (List.replicate 100 (0 : ℚ)) 100 ≠ fallbackResult := by
  refine ⟨analyzeBuffer_silent 100 100, ?_⟩
  rw [analyzeBuffer_silent 100 100, fallbackResult]
  intro hEq
  have := congrArg BPMAnalysisResult.confidence hEq
  norm_num at this

/-- C1 (amended): an all-zero PCM buffer produces no peaks, so the bpm
is the no-intervals default 120, but the analysis succeeds: the result
is `{bpm: 120, confidence: 0.85, optimalSpeed: mapSpeed(120) = 0.5}`,
not the catch-path fallback `{bpm: 120, confidence: 0.5,
optimalSpeed: 2.0}`. -/
theorem silent_buffer_default_bpm_success_path (n sr : ℕ) :
    analyzeBuffer (List.replicate n (0 : ℚ)) sr = ⟨120, 17/20, 1/2⟩ ∧
    analyzeBuffer (List.replicate n (0 : ℚ)) sr ≠ fallbackResult := by
  refine ⟨analyzeBuffer_silent n sr, ?_⟩
  rw [analyzeBuffer_silent n sr, fallbackResult]
  intro hEq
  have := congrArg BPMAnalysisResult.confidence hEq
  norm_num at this

/-- C2 counterexample: when the constructor failed to create an
`AudioContext` (the `audioContext === null` state), `analyzeFile` throws
`'Audio context not initialized'` instead of resolving to a
`TempoEstimate` — the error crosses the estimator boundary and in
particular the call does not resolve to the documented fallback. -/
theorem analyzeFile_throws_without_context :
    analyzeFile false none = Except.error "Audio context not initialized" ∧
    analyzeFile false none ≠ Except.ok fallbackResult := by
  refine ⟨rfl, ?_⟩
  intro hEq
  simp [analyzeFile] at hEq

/-- C2 (amended): provided the audio context was initialized,
`analyzeFile` never fails — a decode/analysis error resolves to the
deterministic fallback `{bpm: 120, confidence: 0.5, optimalSpeed: 2.0}`
and a successful decode returns the computed estimate; only the
uninitialized-context guard, which precedes the `try` block, can
throw. -/
theorem analyzeFile_ok_of_ctx_initialized :
    (∀ decoded : Option (List ℚ × ℕ), ∃ r, analyzeFile true decoded = Except.ok r) ∧
    analyzeFile true none = Except.ok fallbackResult ∧
    (∀ (data : List ℚ) (sr : ℕ),
      analyzeFile true (some (data, sr)) = Except.ok (analyzeBuffer data sr)) := by
  refine ⟨?_, rfl, fun data sr => rfl⟩
  intro decoded
  cases decoded with
  | none => exact ⟨fallbackResult, rfl⟩
  | some p => exact ⟨analyzeBuffer p.1 p.2, rfl⟩

/-- Witness for C1 (amended) at a 200-sample silent buffer at 44100 Hz. -/
theorem silent_buffer_default_bpm_success_path_witness :
    analyzeBuffer (List.replicate 200 (0 : ℚ)) 44100 = ⟨120, 17/20, 1/2⟩ ∧
    analyzeBuffer (List.replicate 200 (0 : ℚ)) 44100 ≠ fallbackResult :=
  silent_buffer_default_bpm_success_path 200 44100

end AudioProcessor

namespace EightDProcessor

/-- Witness for C5 at the constructor state after three ticks. -/
theorem start_stop_idempotent_and_stop_resets_witness :
    start (start initState) = start initState ∧
    stop (stop initState) = stop initState ∧
    (stop initState).pannerPos = ⟨0, 0, -1⟩ ∧
    (stop (animate^[3] initState)).pannerPos = ⟨0, 0, -1⟩ :=
  start_stop_idempotent_and_stop_resets initState 3

/-- Witness for C8 at the constructor state with a speed-only patch. -/
theorem updateConfig_merges_preserves_state_witness :
    (updateConfig initState ⟨some 3, none, none⟩).config.speed =
      (some (3 : ℚ)).getD initState.config.speed ∧
    (updateConfig initState ⟨some 3, none, none⟩).config.intensity =
      (none : Option ℚ).getD initState.config.intensity ∧
    (updateConfig initState ⟨some 3, none, none⟩).config.radius =
      (none : Option ℚ).getD initState.config.radius ∧
    (updateConfig initState ⟨none, none, none⟩).config = initState.config ∧
    (updateConfig initState ⟨some 3, none, none⟩).angle = initState.angle ∧
    (updateConfig initState ⟨some 3, none, none⟩).isActive = initState.isActive ∧
    initState.config = ⟨5/2, 1, 5⟩ :=
  updateConfig_merges_preserves_state initState ⟨some 3, none, none⟩

/-- Witness for C9 at the constructor state with the identity
spectrum oracle. -/
theorem getAnalyserData_size_and_range_witness :
    (getAnalyserData initState (fun i => i)).length = initState.fftSize / 2 ∧
    getAnalyserData { initState with isActive := true } (fun i => i) =
      getAnalyserData initState (fun i => i) ∧
    (getAnalyserData initState (fun i => i)).length = 1024 ∧
    initState.fftSize = 2048 :=
  ⟨(getAnalyserData_size_and_range initState (fun i => i) true).1,
   (getAnalyserData_size_and_range initState (fun i => i) true).2.2.1,
   (getAnalyserData_size_and_range initState (fun i => i) true).2.2.2.1,
   (getAnalyserData_size_and_range initState (fun i => i) true).2.2.2.2⟩

/-- Witness for C10 at the running witness state. -/
theorem stop_keeps_angle_start_resumes_witness :
    (stop runningState).angle = runningState.angle ∧
    (stop runningState).isActive = false ∧
    (stop runningState).config = runningState.config ∧
    (start (stop runningState)).angle =
      runningState.angle + runningState.config.speed * (1/20) :=
  stop_keeps_angle_start_resumes runningState

end EightDProcessor
